import Mathlib

/-!
# Verification of the admission-control moderation engine

Shallow embedding of `src/cogs/moderation.py`: the duration codec
(`_parse_duration`, `_humanize_duration`), the whitelist (exemption) store,
the per-guild settings (policy) store with its legacy day→second migration,
the `on_member_join` decision engine, and the permission-failure escalation
notifier (`_notify_permission_issue`).

Python strings are embedded as `List Char` (with a `String` wrapper),
Python ints as `Int` (as `Nat` where the code guarantees non-negativity),
the sqlite `whitelist` table (primary key `user_id`) as a `Finset Int`, and
the sqlite `settings` table as a finite map `Int → Option SettingsRow`.
Python `//` (floor division) is embedded as `Int.fdiv`.
External calls (member DM, ban, kick, channel send, owner DM) are recorded
as an event trace; fallible sends are driven by environment flags and a
`try/except` block becomes a `match` on an `Except` value.
-/

/-! ## Python string primitives on `List Char` -/

/-- Python `str.strip()` with no argument removes surrounding whitespace. -/
def pyStrip (l : List Char) : List Char :=
  ((l.dropWhile Char.isWhitespace).reverse.dropWhile Char.isWhitespace).reverse

/-- Python `str.lower()` (ASCII fragment, matching the inputs the code meets). -/
def pyLower (l : List Char) : List Char :=
  l.map Char.toLower

/-- Python `str.isdigit()`: non-empty and all digits (ASCII fragment). -/
def pyIsDigit (l : List Char) : Bool :=
  !l.isEmpty && l.all Char.isDigit

/-- Python `int(s)` on a digit string: decimal value. -/
def digitsToNat (l : List Char) : Nat :=
  l.foldl (fun acc c => 10 * acc + (c.toNat - 48)) 0

/-! ## Duration codec -/

/-- The `unit == "s" / "m" / "h" / "d" / "w"` multiplier chain of
`_parse_duration` (the final `else: return None` is the `none` case). -/
def unitMultiplier (c : Char) : Option Nat :=
  if c = 's' then some 1
  else if c = 'm' then some 60
  else if c = 'h' then some 3600
  else if c = 'd' then some 86400
  else if c = 'w' then some 604800
  else none

/-- `_parse_duration` on the character list of the raw string.
The trailing Python guard `if seconds < 0: return None` is unreachable
(`number.isdigit()` admits no sign), so the result lives in `Nat`. -/
def parseDurationChars (raw : List Char) : Option Nat :=
  let value := pyLower (pyStrip raw)
  match value.getLast? with
  | none => none
  | some unit =>
    if unit.isAlpha then
      match unitMultiplier unit with
      | none => none
      | some multiplier =>
        let number := pyStrip value.dropLast
        if pyIsDigit number then some (digitsToNat number * multiplier) else none
    else
      if pyIsDigit value then some (digitsToNat value * 86400) else none

/-- `_parse_duration(raw: str) -> int | None`. -/
def _parse_duration (raw : String) : Option Nat :=
  parseDurationChars raw.data

/-- The unit table `(("w", 604800), ("d", 86400), ("h", 3600), ("m", 60), ("s", 1))`
iterated by `_humanize_duration`. -/
def humanizeUnits : List (String × Nat) :=
  [("w", 604800), ("d", 86400), ("h", 3600), ("m", 60), ("s", 1)]

/-- The `for unit, size in ...` loop of `_humanize_duration`: greedy
decomposition, appending `f"{value}{unit}"` parts, `break` at two parts. -/
def humanizeLoop : Nat → List (String × Nat) → List String → List String
  | _, [], parts => parts
  | remaining, (u, size) :: rest, parts =>
    if size ≤ remaining then
      let parts' := parts ++ [toString (remaining / size) ++ u]
      if 2 ≤ parts'.length then parts' else humanizeLoop (remaining % size) rest parts'
    else
      if 2 ≤ parts.length then parts else humanizeLoop remaining rest parts

/-- `_humanize_duration(seconds: int) -> str`.  In the positive branch every
intermediate value of the Python loop is a non-negative int, so the loop is
run on `seconds.toNat`. -/
def _humanize_duration (seconds : Int) : String :=
  if seconds ≤ 0 then "0s"
  else String.intercalate " " (humanizeLoop seconds.toNat humanizeUnits [])

/-- Greedy unit decomposition of `n` seconds: the week/day/hour/minute/second
digits, largest unit first. -/
def greedyUnits (n : Nat) : List (Nat × String) :=
  [(n / 604800, "w"), (n % 604800 / 86400, "d"), (n % 86400 / 3600, "h"),
   (n % 3600 / 60, "m"), (n % 60, "s")]

/-- Reference formatter written from the specification's words: keep at most
the two largest non-zero units of the greedy decomposition; zero or negative
input is `"0s"`. -/
def humanizeReference (seconds : Int) : String :=
  if seconds ≤ 0 then "0s"
  else
    String.intercalate " "
      ((((greedyUnits seconds.toNat).filter (fun p => p.1 != 0)).take 2).map
        (fun p => toString p.1 ++ p.2))

/-- Rendered non-zero parts of the full greedy decomposition along a unit
table, chaining the remainder through every unit (no two-part cutoff). -/
def chainedUnits : Nat → List (String × Nat) → List String
  | _, [] => []
  | remaining, (u, size) :: rest =>
    (if remaining / size = 0 then [] else [toString (remaining / size) ++ u]) ++
      chainedUnits (remaining % size) rest

/-- The unit counts of the full greedy decomposition along a unit table,
zero entries included. -/
def chainedPairs : Nat → List (String × Nat) → List (Nat × String)
  | _, [] => []
  | remaining, (u, size) :: rest =>
    (remaining / size, u) :: chainedPairs (remaining % size) rest

/-! ## Whitelist (exemption) store

The sqlite table `whitelist (user_id INTEGER PRIMARY KEY)` is a finite set
of ids; `INSERT OR IGNORE` is set insertion, `DELETE` reports via
`rowcount > 0` whether the id was present. -/

/-- `_whitelist_all`: `SELECT user_id FROM whitelist ORDER BY user_id`. -/
def _whitelist_all (db : Finset Int) : List Int :=
  db.sort (· ≤ ·)

/-- `_whitelist_has`: `SELECT 1 FROM whitelist WHERE user_id = ?`. -/
def _whitelist_has (db : Finset Int) (user_id : Int) : Bool :=
  user_id ∈ db

/-- `_whitelist_add`: `INSERT OR IGNORE INTO whitelist`. -/
def _whitelist_add (db : Finset Int) (user_id : Int) : Finset Int :=
  insert user_id db

/-- `_whitelist_remove`: `DELETE FROM whitelist WHERE user_id = ?`,
returning `cur.rowcount > 0` together with the updated table. -/
def _whitelist_remove (db : Finset Int) (user_id : Int) : Bool × Finset Int :=
  (user_id ∈ db, db.erase user_id)

/-! ## Settings (policy) store -/

/-- One row of the sqlite `settings` table after `_init_settings_db`:
`guild_id` is the key of the surrounding map, the four threshold columns are
nullable integers. -/
structure SettingsRow where
  ban_under_days : Option Int
  kick_under_days : Option Int
  ban_under_seconds : Option Int
  kick_under_seconds : Option Int
  deriving DecidableEq, Repr

/-- The `settings` table: at most one row per `guild_id` (primary key). -/
def SettingsDB : Type := Int → Option SettingsRow

/-- `UPDATE ... WHERE guild_id = ?` / plain row replacement. -/
def dbUpdate (db : SettingsDB) (guild_id : Int) (row : SettingsRow) : SettingsDB :=
  fun g => if g = guild_id then some row else db g

/-- `INSERT OR IGNORE INTO settings`: keeps an existing row untouched. -/
def dbInsertIgnore (db : SettingsDB) (guild_id : Int) (row : SettingsRow) : SettingsDB :=
  match db guild_id with
  | some _ => db
  | none => dbUpdate db guild_id row

/-- `_settings_get`: returns the thresholds in seconds together with the
table state after the read (the read migrates legacy day rows in place and
materializes defaults for missing rows). -/
def _settings_get (db : SettingsDB) (guild_id : Int)
    (default_ban_seconds default_kick_seconds : Int) : (Int × Int) × SettingsDB :=
  let fallback : (Int × Int) × SettingsDB :=
    ((default_ban_seconds, default_kick_seconds),
      dbInsertIgnore db guild_id
        ⟨some (Int.fdiv default_ban_seconds 86400), some (Int.fdiv default_kick_seconds 86400),
         some default_ban_seconds, some default_kick_seconds⟩)
  match db guild_id with
  | none => fallback
  | some row =>
    match row.ban_under_seconds, row.kick_under_seconds with
    | some ban_seconds, some kick_seconds => ((ban_seconds, kick_seconds), db)
    | _, _ =>
      match row.ban_under_days, row.kick_under_days with
      | some ban_days, some kick_days =>
        ((ban_days * 86400, kick_days * 86400),
          dbUpdate db guild_id
            { row with ban_under_seconds := some (ban_days * 86400),
                       kick_under_seconds := some (kick_days * 86400) })
      | _, _ => fallback

/-- `_settings_set`: `INSERT OR IGNORE` then `UPDATE` of all four columns,
with `ban_days = (ban_seconds + 86399) // 86400` and likewise for kick. -/
def _settings_set (db : SettingsDB) (guild_id : Int)
    (ban_seconds kick_seconds : Int) : SettingsDB :=
  let ban_days := Int.fdiv (ban_seconds + 86399) 86400
  let kick_days := Int.fdiv (kick_seconds + 86399) 86400
  let db1 := dbInsertIgnore db guild_id
    ⟨some ban_days, some kick_days, some ban_seconds, some kick_seconds⟩
  match db1 guild_id with
  | some _ =>
    dbUpdate db1 guild_id
      ⟨some ban_days, some kick_days, some ban_seconds, some kick_seconds⟩
  | none => db1

/-- The store mutation performed by the `banday` command (`set_ban_days`)
after a successful parse: read the current policy (materializing defaults if
needed), then write the new ban threshold with the kick threshold it read. -/
def set_ban_threshold (db : SettingsDB) (guild_id : Int)
    (default_ban_seconds default_kick_seconds seconds : Int) : SettingsDB :=
  let r := _settings_get db guild_id default_ban_seconds default_kick_seconds
  _settings_set r.2 guild_id seconds r.1.2

/-- The store mutation performed by the `kickday` command (`set_kick_days`)
after a successful parse: symmetric to `set_ban_threshold`. -/
def set_kick_threshold (db : SettingsDB) (guild_id : Int)
    (default_ban_seconds default_kick_seconds seconds : Int) : SettingsDB :=
  let r := _settings_get db guild_id default_ban_seconds default_kick_seconds
  _settings_set r.2 guild_id r.1.1 seconds

/-! ## Event traces and external collaborators -/

/-- Outcome of the external moderation call (`member.ban` / `member.kick`):
success, `discord.Forbidden` (a permission error), or another
`discord.HTTPException`. -/
inductive ActionResult where
  | ok
  | forbidden
  | httpError
  deriving DecidableEq, Repr

/-- Externally visible calls made by the handler.  A `memberDM` / `ownerDM`
event records that the send was attempted (delivery may still fail). -/
inductive Event where
  | settingsRead (guild_id : Int)
  | memberDM (user_id : Int)
  | banCall (user_id : Int)
  | kickCall (user_id : Int)
  | logMsg (channel_id : Int)
  | ownerDM (user_id : Int)
  deriving DecidableEq, Repr

/-- Environment of `_log` and `_notify_permission_issue`:
`log_channel_id` is `self.log_channel_id` (`None` or an integer — Python
truthiness also treats `0` as unset), `get_channel_is_text` says whether
`guild.get_channel(id)` yields a `TextChannel`, `guild_owner` is the cached
`guild.owner`, `fetch_member_ok` whether `guild.fetch_member(guild.owner_id)`
succeeds, and `owner_send_ok` whether `owner.send(...)` succeeds. -/
structure NotifyEnv where
  log_channel_id : Option Int
  get_channel_is_text : Bool
  guild_owner : Option Int
  guild_owner_id : Int
  fetch_member_ok : Bool
  owner_send_ok : Bool
  deriving DecidableEq, Repr

/-- Python truthiness of `self.log_channel_id` (`None` and `0` are falsy). -/
def truthyChannel : Option Int → Bool
  | some c => c != 0
  | none => false

/-- `Moderation._log`: no-op unless a truthy channel id is configured and it
resolves to a text channel in the guild. -/
def _log (env : NotifyEnv) : List Event :=
  match env.log_channel_id with
  | some cid => if cid != 0 && env.get_channel_is_text then [Event.logMsg cid] else []
  | none => []

/-- Owner resolution in `_notify_permission_issue`: `guild.owner`, else
`await guild.fetch_member(guild.owner_id)` with its failure caught. -/
def resolveOwner (env : NotifyEnv) : Option Int :=
  match env.guild_owner with
  | some o => some o
  | none => if env.fetch_member_ok then some env.guild_owner_id else none

/-- The fallible `owner.send(embed=embed)` call. -/
def ownerSendAttempt (env : NotifyEnv) : Except Unit Unit :=
  if env.owner_send_ok then .ok () else .error ()

/-- `Moderation._notify_permission_issue`: log channel first (then return);
otherwise resolve the owner and DM them, swallowing send failure. -/
def _notify_permission_issue (env : NotifyEnv) : List Event :=
  if truthyChannel env.log_channel_id then _log env
  else
    match resolveOwner env with
    | some owner =>
      match ownerSendAttempt env with
      | .ok _ => [Event.ownerDM owner]
      | .error _ => [Event.ownerDM owner]
    | none => []

/-! ## The join-event decision engine -/

/-- Environment of one `on_member_join` invocation.  Timestamps are in
microseconds (the resolution of `datetime`/`timedelta` comparison);
`member_send_ok` drives the fallible `member.send`, `ban_result` /
`kick_result` the external moderation call. -/
structure JoinEnv where
  is_bot : Bool
  member_id : Int
  guild_id : Int
  now_us : Int
  created_at_us : Int
  member_send_ok : Bool
  ban_result : ActionResult
  kick_result : ActionResult
  notify : NotifyEnv
  deriving DecidableEq, Repr

/-- The fallible `member.send(embed=...)` call. -/
def memberSendAttempt (env : JoinEnv) : Except Unit Unit :=
  if env.member_send_ok then .ok () else .error ()

/-- The `try: await member.send(...) except discord.HTTPException: pass`
block: the attempt is recorded, delivery failure is discarded
(`discord.Forbidden` is a subclass of `discord.HTTPException`). -/
def memberDMEvents (env : JoinEnv) : List Event :=
  match memberSendAttempt env with
  | .ok _ => [Event.memberDM env.member_id]
  | .error _ => [Event.memberDM env.member_id]

/-- Result of one `on_member_join` invocation: the trace of external calls
and the two stores.  The handler never writes the whitelist, which the
`whitelist` field makes explicit. -/
structure JoinResult where
  events : List Event
  whitelist : Finset Int
  settings : SettingsDB

/-- `Moderation.on_member_join`: skip bots, skip whitelisted ids, read the
policy (side-effecting read), then ban / kick / admit by account age, with
`discord.Forbidden` from the moderation call routed to
`_notify_permission_issue` and other `discord.HTTPException`s to `_log`. -/
def on_member_join (env : JoinEnv) (wl : Finset Int) (db : SettingsDB)
    (default_ban_seconds default_kick_seconds : Int) : JoinResult :=
  if env.is_bot then ⟨[], wl, db⟩
  else if _whitelist_has wl env.member_id then ⟨[], wl, db⟩
  else
    let age_us := env.now_us - env.created_at_us
    let r := _settings_get db env.guild_id default_ban_seconds default_kick_seconds
    let ban_seconds := r.1.1
    let kick_seconds := r.1.2
    let db1 := r.2
    let readEvents := [Event.settingsRead env.guild_id]
    if age_us < ban_seconds * 1000000 then
      let attempt := readEvents ++ memberDMEvents env ++ [Event.banCall env.member_id]
      match env.ban_result with
      | .ok => ⟨attempt ++ _log env.notify, wl, db1⟩
      | .forbidden => ⟨attempt ++ _notify_permission_issue env.notify, wl, db1⟩
      | .httpError => ⟨attempt ++ _log env.notify, wl, db1⟩
    else if age_us < kick_seconds * 1000000 then
      let attempt := readEvents ++ memberDMEvents env ++ [Event.kickCall env.member_id]
      match env.kick_result with
      | .ok => ⟨attempt ++ _log env.notify, wl, db1⟩
      | .forbidden => ⟨attempt ++ _notify_permission_issue env.notify, wl, db1⟩
      | .httpError => ⟨attempt ++ _log env.notify, wl, db1⟩
    else ⟨readEvents, wl, db1⟩

/-- The three possible decisions of the engine. -/
inductive JoinAction where
  | permanentRemoval
  | temporaryRemoval
  | noAction
  deriving DecidableEq, Repr

/-- The action a trace shows the engine chose for `user_id`: a ban call
means permanent removal, a kick call temporary removal. -/
def chosenAction (events : List Event) (user_id : Int) : JoinAction :=
  if Event.banCall user_id ∈ events then .permanentRemoval
  else if Event.kickCall user_id ∈ events then .temporaryRemoval
  else .noAction

/-- Reference state machine from the specification: bot → none; exempt →
none; `age < ban_threshold` → permanent removal (checked first); else
`age < kick_threshold` → temporary removal; else none.  Age is in
microseconds, thresholds in seconds. -/
def referenceDecision (is_bot exempt : Bool) (age_us ban_seconds kick_seconds : Int) :
    JoinAction :=
  if is_bot then .noAction
  else if exempt then .noAction
  else if age_us < ban_seconds * 1000000 then .permanentRemoval
  else if age_us < kick_seconds * 1000000 then .temporaryRemoval
  else .noAction

/-! ## Concrete fixtures for the specification's worked examples -/

/-- A settings table in which every guild has `ban_threshold = 604800` (7d)
and `kick_threshold = 2592000` (30d). -/
def examplePolicyDB : SettingsDB :=
  fun _ => some ⟨some 7, some 30, some 604800, some 2592000⟩

/-- A notifier environment with no log channel whose guild owner `99`
resolves from the cache. -/
def exampleNotifyEnv : NotifyEnv :=
  ⟨none, false, some 99, 99, true, true⟩

/-- A non-bot member `555` joining guild `42` with an account exactly
`age_days` days old; all external sends succeed. -/
def exampleJoinEnv (age_days : Int) : JoinEnv :=
  ⟨false, 555, 42, age_days * 86400 * 1000000, 0, true, .ok, .ok, exampleNotifyEnv⟩

/-! ## Store lemmas -/

/-- Reading a guild whose row already has both second-granularity columns
returns them and leaves the table untouched. -/
lemma settings_get_of_seconds (db : SettingsDB) (guild_id : Int)
    (d d' : Int) (row : SettingsRow) (bs ks : Int)
    (h : db guild_id = some row)
    (hb : row.ban_under_seconds = some bs)
    (hk : row.kick_under_seconds = some ks) :
    _settings_get db guild_id d d' = ((bs, ks), db) := by
  simp [_settings_get, h, hb, hk]

/-- After `_settings_set` the guild's row holds exactly the written values. -/
lemma settings_set_apply (db : SettingsDB) (guild_id : Int) (b k : Int) :
    _settings_set db guild_id b k guild_id =
      some ⟨some (Int.fdiv (b + 86399) 86400), some (Int.fdiv (k + 86399) 86400),
            some b, some k⟩ := by
  unfold _settings_set dbInsertIgnore dbUpdate
  cases h : db guild_id <;> simp [h]

/-! ## Claim theorems: stores -/

/-- C5: the exemption set is idempotent under `Add` (a doubly added id is
listed exactly once), `Remove` of an absent id reports `false` and leaves the
set unchanged, and `Remove` of a present id reports `true` and removes it. -/
theorem whitelist_add_remove_idempotent (db : Finset Int) (user_id : Int) :
    (_whitelist_all (_whitelist_add (_whitelist_add db user_id) user_id)).count user_id = 1
    ∧ (user_id ∉ db → _whitelist_remove db user_id = (false, db))
    ∧ (user_id ∈ db →
        (_whitelist_remove db user_id).1 = true
        ∧ user_id ∉ (_whitelist_remove db user_id).2) := by
  refine ⟨?_, ?_, ?_⟩
  · have hmem : user_id ∈ _whitelist_all (_whitelist_add (_whitelist_add db user_id) user_id) := by
      simp [_whitelist_all, _whitelist_add, Finset.mem_sort]
    have hnd : (_whitelist_all (_whitelist_add (_whitelist_add db user_id) user_id)).Nodup :=
      Finset.sort_nodup _ _
    exact List.count_eq_one_of_mem hnd hmem
  · intro h
    simp [_whitelist_remove, h, Finset.erase_eq_of_not_mem]
  · intro h
    exact ⟨by simp [_whitelist_remove, h], by simp [_whitelist_remove]⟩

/-- C5 witness: removing the absent id `5` from `{3}` reports `false` and
leaves the table unchanged. -/
theorem whitelist_add_remove_idempotent_witness :
    _whitelist_remove ({3} : Finset Int) 5 = (false, {3}) :=
  (whitelist_add_remove_idempotent ({3} : Finset Int) 5).2.1 (by decide)

/-- C6: a policy read for a never-configured guild returns the process
default thresholds, persists them in the row it creates, and a subsequent
read returns those same values without touching the table again. -/
theorem settings_default_materialization (db : SettingsDB) (guild_id : Int)
    (dban dkick : Int) (h : db guild_id = none) :
    (_settings_get db guild_id dban dkick).1 = (dban, dkick)
    ∧ (_settings_get db guild_id dban dkick).2 guild_id =
        some ⟨some (Int.fdiv dban 86400), some (Int.fdiv dkick 86400), some dban, some dkick⟩
    ∧ _settings_get ((_settings_get db guild_id dban dkick).2) guild_id dban dkick =
        ((dban, dkick), (_settings_get db guild_id dban dkick).2) := by
  have h1 : (_settings_get db guild_id dban dkick).2 guild_id =
      some ⟨some (Int.fdiv dban 86400), some (Int.fdiv dkick 86400), some dban, some dkick⟩ := by
    simp [_settings_get, h, dbInsertIgnore, dbUpdate]
  refine ⟨by simp [_settings_get, h], h1, ?_⟩
  exact settings_get_of_seconds _ _ _ _ _ _ _ h1 rfl rfl

/-- C6 witness: materializing the defaults `(604800, 2592000)` for guild `1`
on an empty table. -/
theorem settings_default_materialization_witness :
    (_settings_get (fun _ => none) 1 604800 2592000).1 = (604800, 2592000) :=
  (settings_default_materialization (fun _ => none) 1 604800 2592000 rfl).1

/-- C2: a row holding only legacy day-granularity thresholds is upgraded on
first read: the read returns `(ban_days * 86400, kick_days * 86400)`,
persists exactly those second values while keeping the operator's day values
in place, and a second read returns the same pair without further writes. -/
theorem settings_legacy_migration (db : SettingsDB) (guild_id : Int)
    (row : SettingsRow) (bd kd dban dkick : Int)
    (h : db guild_id = some row)
    (hbs : row.ban_under_seconds = none)
    (hks : row.kick_under_seconds = none)
    (hbd : row.ban_under_days = some bd)
    (hkd : row.kick_under_days = some kd) :
    (_settings_get db guild_id dban dkick).1 = (bd * 86400, kd * 86400)
    ∧ (_settings_get db guild_id dban dkick).2 guild_id =
        some { row with ban_under_seconds := some (bd * 86400),
                        kick_under_seconds := some (kd * 86400) }
    ∧ _settings_get ((_settings_get db guild_id dban dkick).2) guild_id dban dkick =
        ((bd * 86400, kd * 86400), (_settings_get db guild_id dban dkick).2) := by
  have h1 : (_settings_get db guild_id dban dkick).2 guild_id =
      some { row with ban_under_seconds := some (bd * 86400),
                      kick_under_seconds := some (kd * 86400) } := by
    simp [_settings_get, h, hbs, hks, hbd, hkd, dbUpdate]
  refine ⟨by simp [_settings_get, h, hbs, hks, hbd, hkd], h1, ?_⟩
  exact settings_get_of_seconds _ _ _ _ _ _ _ h1 rfl rfl

/-- C2 witness: migrating the legacy row `(ban 3 days, kick 10 days)` of
guild `7` yields `(259200, 864000)`. -/
theorem settings_legacy_migration_witness :
    (_settings_get (fun g => if g = 7 then some ⟨some 3, some 10, none, none⟩ else none)
      7 604800 2592000).1 = (259200, 864000) :=
  (settings_legacy_migration
    (fun g => if g = 7 then some ⟨some 3, some 10, none, none⟩ else none)
    7 ⟨some 3, some 10, none, none⟩ 3 10 604800 2592000 rfl rfl rfl rfl rfl).1

/-- C7: setting the ban threshold preserves the kick threshold a fresh read
would have returned (process defaults when no row existed), and vice versa:
the next policy read observes the new value and the unchanged other value. -/
theorem set_threshold_preserves_other (db : SettingsDB) (guild_id : Int)
    (dban dkick seconds : Int) :
    _settings_get (set_ban_threshold db guild_id dban dkick seconds) guild_id dban dkick =
      ((seconds, (_settings_get db guild_id dban dkick).1.2),
        set_ban_threshold db guild_id dban dkick seconds)
    ∧ _settings_get (set_kick_threshold db guild_id dban dkick seconds) guild_id dban dkick =
      (((_settings_get db guild_id dban dkick).1.1, seconds),
        set_kick_threshold db guild_id dban dkick seconds) := by
  constructor
  · exact settings_get_of_seconds _ _ _ _ _ _ _
      (settings_set_apply _ _ _ _) rfl rfl
  · exact settings_get_of_seconds _ _ _ _ _ _ _
      (settings_set_apply _ _ _ _) rfl rfl

/-! ## Notifier lemmas -/

/-- Every event `_log` emits is a channel message to the configured id. -/
lemma mem_log_shape (env : NotifyEnv) (e : Event) (h : e ∈ _log env) :
    ∃ cid, env.log_channel_id = some cid ∧ e = Event.logMsg cid := by
  unfold _log at h
  rcases hc : env.log_channel_id with _ | cid <;> rw [hc] at h
  · simp at h
  · refine ⟨cid, rfl, ?_⟩
    by_cases ht : (cid != 0 && env.get_channel_is_text) = true <;> simp [ht] at h
    exact h

/-- A ban call never appears in a `_log` trace. -/
lemma banCall_not_mem_log (env : NotifyEnv) (uid : Int) :
    Event.banCall uid ∉ _log env := by
  intro h
  obtain ⟨cid, _, he⟩ := mem_log_shape env _ h
  simp at he

/-- A kick call never appears in a `_log` trace. -/
lemma kickCall_not_mem_log (env : NotifyEnv) (uid : Int) :
    Event.kickCall uid ∉ _log env := by
  intro h
  obtain ⟨cid, _, he⟩ := mem_log_shape env _ h
  simp at he

/-- Every event `_notify_permission_issue` emits is a channel message or an
owner direct message. -/
lemma mem_notify_shape (env : NotifyEnv) (e : Event)
    (h : e ∈ _notify_permission_issue env) :
    (∃ cid, e = Event.logMsg cid) ∨ ∃ uid, e = Event.ownerDM uid := by
  unfold _notify_permission_issue at h
  by_cases ht : truthyChannel env.log_channel_id = true
  · rw [if_pos ht] at h
    obtain ⟨cid, _, he⟩ := mem_log_shape env _ h
    exact Or.inl ⟨cid, he⟩
  · rw [if_neg ht] at h
    rcases ho : resolveOwner env with _ | owner <;> rw [ho] at h
    · simp at h
    · rcases hs : ownerSendAttempt env with _ | _ <;> rw [hs] at h <;>
        simp at h <;> exact Or.inr ⟨owner, h⟩

/-- A ban call never appears in an escalation trace. -/
lemma banCall_not_mem_notify (env : NotifyEnv) (uid : Int) :
    Event.banCall uid ∉ _notify_permission_issue env := by
  intro h
  rcases mem_notify_shape env _ h with ⟨cid, he⟩ | ⟨o, he⟩ <;> simp at he

/-- A kick call never appears in an escalation trace. -/
lemma kickCall_not_mem_notify (env : NotifyEnv) (uid : Int) :
    Event.kickCall uid ∉ _notify_permission_issue env := by
  intro h
  rcases mem_notify_shape env _ h with ⟨cid, he⟩ | ⟨o, he⟩ <;> simp at he

/-! ## Claim theorems: escalation and the join handler -/

/-- C8: escalation tries targets in strict order.  With a truthy log channel
the notice is routed to that channel only (never an owner DM, and it is
delivered whenever the channel resolves); with none, no channel message is
emitted and the notice is sent as a DM to the resolved owner — exactly one
attempt, whose failure is swallowed (the equations hold for every value of
`owner_send_ok`), with nothing after a failed or unresolvable owner send. -/
theorem escalation_notifier_routing (env : NotifyEnv) :
    (truthyChannel env.log_channel_id = true →
      (∀ uid, Event.ownerDM uid ∉ _notify_permission_issue env)
      ∧ (∀ e ∈ _notify_permission_issue env,
          ∃ cid, env.log_channel_id = some cid ∧ e = Event.logMsg cid)
      ∧ (∀ cid, env.log_channel_id = some cid → env.get_channel_is_text = true →
          _notify_permission_issue env = [Event.logMsg cid]))
    ∧ (truthyChannel env.log_channel_id = false →
      (∀ cid, Event.logMsg cid ∉ _notify_permission_issue env)
      ∧ (∀ uid, resolveOwner env = some uid →
          _notify_permission_issue env = [Event.ownerDM uid])
      ∧ (resolveOwner env = none → _notify_permission_issue env = [])) := by
  constructor
  · intro ht
    have hlog : _notify_permission_issue env = _log env := by
      unfold _notify_permission_issue
      rw [if_pos ht]
    refine ⟨?_, ?_, ?_⟩
    · intro uid h
      rw [hlog] at h
      obtain ⟨cid, _, he⟩ := mem_log_shape env _ h
      simp at he
    · intro e h
      rw [hlog] at h
      exact mem_log_shape env _ h
    · intro cid hcid htext
      have hne : (cid != 0) = true := by
        simpa [truthyChannel, hcid] using ht
      rw [hlog]
      unfold _log
      rw [hcid]
      simp [hne, htext]
  · intro ht
    have hbody : _notify_permission_issue env =
        (match resolveOwner env with
          | some owner =>
            (match ownerSendAttempt env with
              | .ok _ => [Event.ownerDM owner]
              | .error _ => [Event.ownerDM owner])
          | none => []) := by
      unfold _notify_permission_issue
      rw [if_neg (by simp [ht])]
    refine ⟨?_, ?_, ?_⟩
    · intro cid h
      rw [hbody] at h
      rcases ho : resolveOwner env with _ | owner <;> rw [ho] at h
      · simp at h
      · rcases hs : ownerSendAttempt env with _ | _ <;> rw [hs] at h <;> simp at h
    · intro uid ho
      rw [hbody, ho]
      rcases ownerSendAttempt env with _ | _ <;> rfl
    · intro ho
      rw [hbody, ho]

/-- C8 witness: with no log channel, a cache-resolvable owner `99` and a
failing owner send, the escalation is exactly one DM attempt to `99`. -/
theorem escalation_notifier_routing_witness :
    _notify_permission_issue ⟨none, false, some 99, 99, true, false⟩ =
      [Event.ownerDM 99] :=
  ((escalation_notifier_routing ⟨none, false, some 99, 99, true, false⟩).2 rfl).2.1 99 rfl

/-- The member-DM block records exactly one attempted send whether or not
delivery succeeds (the `except` clause discards the failure). -/
lemma memberDMEvents_eq (env : JoinEnv) :
    memberDMEvents env = [Event.memberDM env.member_id] := by
  unfold memberDMEvents memberSendAttempt
  by_cases h : env.member_send_ok <;> simp [h]

/-- C10: a join by a bot or by a whitelisted id performs no external call at
all — not even the policy read — and leaves both stores untouched. -/
theorem join_skip_is_pure (env : JoinEnv) (wl : Finset Int) (db : SettingsDB)
    (dban dkick : Int) (h : env.is_bot = true ∨ env.member_id ∈ wl) :
    on_member_join env wl db dban dkick = ⟨[], wl, db⟩ := by
  rcases h with h | h
  · simp [on_member_join, h]
  · have hw : _whitelist_has wl env.member_id = true := by
      simp [_whitelist_has, h]
    by_cases hb : env.is_bot = true <;> simp [on_member_join, hb, hw]

/-- C10 witness: a bot join against the example stores emits no events and
returns both stores unchanged. -/
theorem join_skip_is_pure_witness :
    on_member_join ⟨true, 1, 2, 0, 0, true, .ok, .ok, exampleNotifyEnv⟩
      ∅ examplePolicyDB 604800 2592000 = ⟨[], ∅, examplePolicyDB⟩ :=
  join_skip_is_pure _ ∅ examplePolicyDB 604800 2592000 (Or.inl rfl)

/-- C9: whenever the decision is a removal, the moderation call is attempted
regardless of whether the direct message to the member could be delivered —
the trace always contains the ban (resp. kick) call, for every value of
`member_send_ok` and of the moderation outcome. -/
theorem member_dm_failure_never_blocks_action (env : JoinEnv) (wl : Finset Int)
    (db : SettingsDB) (dban dkick : Int) :
    (referenceDecision env.is_bot (_whitelist_has wl env.member_id)
        (env.now_us - env.created_at_us)
        (_settings_get db env.guild_id dban dkick).1.1
        (_settings_get db env.guild_id dban dkick).1.2 = .permanentRemoval →
      Event.banCall env.member_id ∈ (on_member_join env wl db dban dkick).events)
    ∧ (referenceDecision env.is_bot (_whitelist_has wl env.member_id)
        (env.now_us - env.created_at_us)
        (_settings_get db env.guild_id dban dkick).1.1
        (_settings_get db env.guild_id dban dkick).1.2 = .temporaryRemoval →
      Event.kickCall env.member_id ∈ (on_member_join env wl db dban dkick).events) := by
  constructor <;> intro h <;> unfold referenceDecision at h <;>
    split_ifs at h with h1 h2 h3 h4 <;> try exact absurd h (by decide)
  · cases hr : env.ban_result <;>
      simp [on_member_join, h1, h2, h3, hr, memberDMEvents_eq]
  · cases hr : env.kick_result <;>
      simp [on_member_join, h1, h2, h3, h4, hr, memberDMEvents_eq]

/-- C9 witness: a three-day-old account joining under the example policy
with a failing member DM still gets the ban call. -/
theorem member_dm_failure_never_blocks_action_witness :
    Event.banCall 555 ∈
      (on_member_join ⟨false, 555, 42, 259200000000, 0, false, .ok, .ok, exampleNotifyEnv⟩
        ∅ examplePolicyDB 604800 2592000).events :=
  (member_dm_failure_never_blocks_action
    ⟨false, 555, 42, 259200000000, 0, false, .ok, .ok, exampleNotifyEnv⟩
    ∅ examplePolicyDB 604800 2592000).1 (by decide)

/-- C1: for every join event, the action shown by the trace equals the
reference state machine (bot → none, exempt → none, `age < ban_threshold` →
permanent removal, checked first, else `age < kick_threshold` → temporary
removal, else none), and under the policy `(604800, 2592000)` a 3-day-old
account is permanently removed, a 15-day-old one temporarily removed, and a
45-day-old one untouched. -/
theorem join_decision_matches_reference (env : JoinEnv) (wl : Finset Int)
    (db : SettingsDB) (dban dkick : Int) :
    (chosenAction (on_member_join env wl db dban dkick).events env.member_id
      = referenceDecision env.is_bot (_whitelist_has wl env.member_id)
          (env.now_us - env.created_at_us)
          (_settings_get db env.guild_id dban dkick).1.1
          (_settings_get db env.guild_id dban dkick).1.2)
    ∧ chosenAction (on_member_join (exampleJoinEnv 3) ∅ examplePolicyDB
        604800 2592000).events 555 = .permanentRemoval
    ∧ chosenAction (on_member_join (exampleJoinEnv 15) ∅ examplePolicyDB
        604800 2592000).events 555 = .temporaryRemoval
    ∧ chosenAction (on_member_join (exampleJoinEnv 45) ∅ examplePolicyDB
        604800 2592000).events 555 = .noAction := by
  refine ⟨?_, by decide, by decide, by decide⟩
  by_cases h1 : env.is_bot = true
  · simp [on_member_join, referenceDecision, chosenAction, h1]
  by_cases h2 : _whitelist_has wl env.member_id = true
  · simp [on_member_join, referenceDecision, chosenAction, h1, h2]
  by_cases h3 : env.now_us - env.created_at_us <
      (_settings_get db env.guild_id dban dkick).1.1 * 1000000
  · cases hr : env.ban_result <;>
      simp [on_member_join, referenceDecision, chosenAction, h1, h2, h3, hr,
        memberDMEvents_eq]
  by_cases h4 : env.now_us - env.created_at_us <
      (_settings_get db env.guild_id dban dkick).1.2 * 1000000
  · cases hr : env.kick_result <;>
      simp [on_member_join, referenceDecision, chosenAction, h1, h2, h3, h4, hr,
        memberDMEvents_eq, banCall_not_mem_log, banCall_not_mem_notify]
  · simp [on_member_join, referenceDecision, chosenAction, h1, h2, h3, h4]

/-! ## Humanize lemmas -/

/-- The formatting loop with its two-part `break` computes the first two
rendered non-zero parts of the full chained decomposition. -/
lemma humanizeLoop_eq_take (units : List (String × Nat))
    (hpos : ∀ p ∈ units, 0 < p.2) :
    ∀ (remaining : Nat) (parts : List String), parts.length ≤ 1 →
      humanizeLoop remaining units parts =
        parts ++ (chainedUnits remaining units).take (2 - parts.length) := by
  induction units with
  | nil => intro r parts _; simp [humanizeLoop, chainedUnits]
  | cons p rest ih =>
    obtain ⟨u, size⟩ := p
    intro r parts hlen
    have hsize : 0 < size := hpos (u, size) (by simp)
    have hrest : ∀ q ∈ rest, 0 < q.2 := fun q hq => hpos q (by simp [hq])
    by_cases hge : size ≤ r
    · have hdiv : ¬ r / size = 0 := by
        have := Nat.div_pos hge hsize
        omega
      rcases Nat.lt_or_ge parts.length 1 with h0 | h1
      · have hnil : parts = [] := List.eq_nil_of_length_eq_zero (by omega)
        subst hnil
        simp only [humanizeLoop, chainedUnits]
        rw [if_pos hge, if_neg (by simp), if_neg hdiv]
        rw [ih hrest (r % size) _ (by simp)]
        simp
      · have hone : parts.length = 1 := by omega
        simp only [humanizeLoop, chainedUnits]
        rw [if_pos hge, if_pos (by simp [hone]), if_neg hdiv]
        simp [hone]
    · have hlt : r < size := lt_of_not_ge hge
      have hdiv : r / size = 0 := Nat.div_eq_of_lt hlt
      have hmod : r % size = r := Nat.mod_eq_of_lt hlt
      simp only [humanizeLoop, chainedUnits]
      rw [if_neg hge, if_neg (by omega), ih hrest r parts hlen, hdiv, hmod]
      simp

/-- The chained decomposition along the codec's unit table is the rendered
non-zero part list of the greedy week/day/hour/minute/second decomposition. -/
lemma chainedUnits_eq_greedy (n : Nat) :
    chainedUnits n humanizeUnits =
      ((greedyUnits n).filter (fun p => p.1 != 0)).map (fun p => toString p.1 ++ p.2) := by
  have hfm : ∀ (units : List (String × Nat)) (r : Nat),
      chainedUnits r units =
        ((chainedPairs r units).filter (fun p => p.1 != 0)).map
          (fun p => toString p.1 ++ p.2) := by
    intro units
    induction units with
    | nil => intro r; simp [chainedUnits, chainedPairs]
    | cons p rest ih =>
      obtain ⟨u, size⟩ := p
      intro r
      by_cases h : r / size = 0 <;>
        simp [chainedUnits, chainedPairs, List.filter_cons, h, ih]
  have hpairs : chainedPairs n humanizeUnits = greedyUnits n := by
    have h1 : n % 604800 % 86400 = n % 86400 :=
      Nat.mod_mod_of_dvd n (by norm_num)
    have h2 : n % 86400 % 3600 = n % 3600 :=
      Nat.mod_mod_of_dvd n (by norm_num)
    have h3 : n % 3600 % 60 = n % 60 :=
      Nat.mod_mod_of_dvd n (by norm_num)
    simp [chainedPairs, humanizeUnits, greedyUnits, h1, h2, h3]
  rw [hfm, hpairs]

/-- C4 core: `_humanize_duration` agrees with the reference formatter (at
most the two largest non-zero units, `"0s"` for non-positive input). -/
lemma humanize_eq_reference (seconds : Int) :
    _humanize_duration seconds = humanizeReference seconds := by
  by_cases hs : seconds ≤ 0
  · simp [_humanize_duration, humanizeReference, hs]
  · rw [_humanize_duration, humanizeReference, if_neg hs, if_neg hs]
    rw [humanizeLoop_eq_take humanizeUnits (by decide) seconds.toNat [] (by simp)]
    rw [chainedUnits_eq_greedy]
    simp [List.map_take]

/-- C4: `Format` uses at most the two largest non-zero units of the greedy
decomposition (it equals the reference formatter), renders every
non-positive input as `"0s"`, and on the worked examples gives
`90061 ↦ "1d 1h"`, `0 ↦ "0s"`, `59 ↦ "59s"`. -/
theorem humanize_duration_spec (seconds : Int) :
    _humanize_duration seconds = humanizeReference seconds
    ∧ (seconds ≤ 0 → _humanize_duration seconds = "0s")
    ∧ _humanize_duration 90061 = "1d 1h"
    ∧ _humanize_duration 0 = "0s"
    ∧ _humanize_duration 59 = "59s" := by
  refine ⟨humanize_eq_reference seconds, ?_, by decide, by decide, by decide⟩
  intro h
  simp [_humanize_duration, h]

/-- C4 witness: `-5` seconds formats as `"0s"`. -/
theorem humanize_duration_spec_witness : _humanize_duration (-5) = "0s" :=
  (humanize_duration_spec (-5)).2.1 (by decide)

/-! ## Character lemmas for the duration grammar -/

/-- ASCII digits are untouched by lowering. -/
lemma char_digit_toLower (c : Char) (h : c.isDigit = true) : c.toLower = c := by
  simp [Char.isDigit] at h
  obtain ⟨h1, h2⟩ := h
  have h2n : c.val.toNat ≤ 57 := by simpa [UInt32.le_def] using h2
  unfold Char.toLower
  rw [if_neg]
  intro hcon
  obtain ⟨hc1, hc2⟩ := hcon
  have he : Char.toNat c = c.val.toNat := rfl
  omega

/-- ASCII digits are not letters. -/
lemma char_digit_not_alpha (c : Char) (h : c.isDigit = true) : ¬ c.isAlpha = true := by
  simp [Char.isDigit] at h
  obtain ⟨h1, h2⟩ := h
  have h2n : c.val.toNat ≤ 57 := by simpa [UInt32.le_def] using h2
  have hb : c.val.toBitVec.toNat = c.val.toNat := rfl
  simp [Char.isAlpha, Char.isUpper, Char.isLower, UInt32.le_def, UInt32.lt_def,
    BitVec.le_def, BitVec.lt_def]
  omega

/-- ASCII digits are not whitespace. -/
lemma char_digit_not_ws (c : Char) (h : c.isDigit = true) : c.isWhitespace = false := by
  simp [Char.isDigit] at h
  obtain ⟨h1, h2⟩ := h
  have h1n : 48 ≤ c.val.toNat := by simpa [UInt32.le_def] using h1
  simp only [Char.isWhitespace, Bool.or_eq_false_iff]
  refine ⟨⟨⟨?_, ?_⟩, ?_⟩, ?_⟩ <;>
    · simp only [decide_eq_false_iff_not]
      rintro rfl
      exact absurd h1n (by decide)

/-- A unit letter accepted by the multiplier chain is a letter. -/
lemma unit_alpha (u : Char) (m : Nat) (h : unitMultiplier u.toLower = some m) :
    u.toLower.isAlpha = true := by
  unfold unitMultiplier at h
  split_ifs at h with h1 h2 h3 h4 h5
  · rw [h1]; decide
  · rw [h2]; decide
  · rw [h3]; decide
  · rw [h4]; decide
  · rw [h5]; decide

/-- A character whose lowering is a letter is not whitespace. -/
lemma lower_alpha_not_ws (u : Char) (h : u.toLower.isAlpha = true) :
    u.isWhitespace = false := by
  by_contra hcon
  have hws : u.isWhitespace = true := by
    revert hcon
    cases u.isWhitespace <;> simp
  simp [Char.isWhitespace] at hws
  rcases hws with ((rfl | rfl) | rfl) | rfl <;> exact absurd h (by decide)

/-- A character whose lowering the multiplier chain accepts is not whitespace. -/
lemma unit_not_ws (u : Char) (m : Nat) (h : unitMultiplier u.toLower = some m) :
    u.isWhitespace = false :=
  lower_alpha_not_ws u (unit_alpha u m h)

/-! ## Strip / lower lemmas -/

/-- `dropWhile` is the identity when the predicate fails on every element. -/
lemma dropWhile_eq_self_of_forall (p : Char → Bool) (l : List Char)
    (h : ∀ c ∈ l, p c = false) : l.dropWhile p = l := by
  cases l with
  | nil => rfl
  | cons a as => simp [List.dropWhile_cons, h a (by simp)]

/-- Stripping a string with no surrounding whitespace is the identity. -/
lemma pyStrip_eq_self (l : List Char) (h : ∀ c ∈ l, c.isWhitespace = false) :
    pyStrip l = l := by
  unfold pyStrip
  rw [dropWhile_eq_self_of_forall _ l h,
    dropWhile_eq_self_of_forall _ l.reverse (fun c hc => h c (List.mem_reverse.mp hc))]
  exact List.reverse_reverse l

/-- Mapping a pointwise-identity function is the identity. -/
lemma list_map_id_of (f : Char → Char) (l : List Char) (h : ∀ c ∈ l, f c = c) :
    l.map f = l := by
  induction l with
  | nil => rfl
  | cons a as ih => simp [h a (by simp), ih fun c hc => h c (by simp [hc])]

/-- Lowering a digit string is the identity. -/
lemma pyLower_digits (ds : List Char) (h : ∀ c ∈ ds, c.isDigit = true) :
    pyLower ds = ds :=
  list_map_id_of _ ds fun c hc => char_digit_toLower c (h c hc)

/-- A non-empty digit string passes `isdigit()`. -/
lemma pyIsDigit_of_digits (ds : List Char) (hne : ds ≠ [])
    (h : ∀ c ∈ ds, c.isDigit = true) : pyIsDigit ds = true := by
  simp only [pyIsDigit, List.isEmpty_iff, List.all_eq_true, Bool.and_eq_true,
    Bool.not_eq_true']
  refine ⟨?_, fun x hx => h x hx⟩
  simpa [List.isEmpty_iff] using hne

/-! ## Parse lemmas -/

/-- `_parse_duration` on digits followed by a recognized unit letter. -/
lemma parse_digits_unit (ds : List Char) (u : Char) (mult : Nat)
    (hne : ds ≠ []) (hdig : ∀ c ∈ ds, c.isDigit = true)
    (hu : unitMultiplier u.toLower = some mult) :
    parseDurationChars (ds ++ [u]) = some (digitsToNat ds * mult) := by
  have hdnws : ∀ c ∈ ds, c.isWhitespace = false :=
    fun c hc => char_digit_not_ws c (hdig c hc)
  have hnws : ∀ c ∈ ds ++ [u], c.isWhitespace = false := by
    intro c hc
    rcases List.mem_append.mp hc with hc | hc
    · exact hdnws c hc
    · simp at hc
      rw [hc]
      exact unit_not_ws u mult hu
  have hval : pyLower (pyStrip (ds ++ [u])) = ds ++ [u.toLower] := by
    rw [pyStrip_eq_self _ hnws]
    unfold pyLower
    rw [List.map_append, list_map_id_of _ ds
      (fun c hc => char_digit_toLower c (hdig c hc))]
    rfl
  simp only [parseDurationChars, hval, List.getLast?_concat, List.dropLast_concat]
  rw [if_pos (unit_alpha u mult hu), hu]
  simp only [pyStrip_eq_self ds hdnws]
  rw [if_pos (pyIsDigit_of_digits ds hne hdig)]

/-- `_parse_duration` on a bare digit string (days default). -/
lemma parse_digits_bare (ds : List Char) (hne : ds ≠ [])
    (hdig : ∀ c ∈ ds, c.isDigit = true) :
    parseDurationChars ds = some (digitsToNat ds * 86400) := by
  have hdnws : ∀ c ∈ ds, c.isWhitespace = false :=
    fun c hc => char_digit_not_ws c (hdig c hc)
  have hval : pyLower (pyStrip ds) = ds := by
    rw [pyStrip_eq_self _ hdnws]
    exact pyLower_digits ds hdig
  cases hlast : ds.getLast? with
  | none => exact absurd (by simpa using hlast) hne
  | some c =>
    have hcmem : c ∈ ds := List.mem_of_getLast?_eq_some hlast
    simp only [parseDurationChars, hval, hlast]
    rw [if_neg (char_digit_not_alpha c (hdig c hcmem)),
      if_pos (pyIsDigit_of_digits ds hne hdig)]

/-- `_parse_duration` rejects a digit string with an unknown unit letter. -/
lemma parse_digits_unknown_unit (ds : List Char) (u : Char)
    (hdig : ∀ c ∈ ds, c.isDigit = true) (halpha : u.toLower.isAlpha = true)
    (hu : unitMultiplier u.toLower = none) :
    parseDurationChars (ds ++ [u]) = none := by
  have hnws : ∀ c ∈ ds ++ [u], c.isWhitespace = false := by
    intro c hc
    rcases List.mem_append.mp hc with hc | hc
    · exact char_digit_not_ws c (hdig c hc)
    · simp at hc
      rw [hc]
      exact lower_alpha_not_ws u halpha
  have hval : pyLower (pyStrip (ds ++ [u])) = ds ++ [u.toLower] := by
    rw [pyStrip_eq_self _ hnws]
    unfold pyLower
    rw [List.map_append, list_map_id_of _ ds
      (fun c hc => char_digit_toLower c (hdig c hc))]
    rfl
  simp only [parseDurationChars, hval, List.getLast?_concat]
  rw [if_pos halpha, hu]

/-- C3: `Parse` accepts a non-negative decimal count optionally followed by
one (case-insensitive) unit letter among s/m/h/d/w with multipliers
1/60/3600/86400/604800, days being the default with no unit letter; an
unknown unit letter fails, as do an empty numeric portion, non-digit input
and a negative count; concretely `7d ↦ 604800`, `12h ↦ 43200`,
`30 ↦ 2592000`, and `xyz`, `-5d`, the empty string and bare `d` fail. -/
theorem parse_duration_spec :
    (∀ (ds : List Char) (u : Char) (mult : Nat),
      ds ≠ [] → (∀ c ∈ ds, c.isDigit = true) →
      unitMultiplier u.toLower = some mult →
      _parse_duration ⟨ds ++ [u]⟩ = some (digitsToNat ds * mult))
    ∧ (∀ (ds : List Char), ds ≠ [] → (∀ c ∈ ds, c.isDigit = true) →
      _parse_duration ⟨ds⟩ = some (digitsToNat ds * 86400))
    ∧ (∀ (ds : List Char) (u : Char), (∀ c ∈ ds, c.isDigit = true) →
      u.toLower.isAlpha = true → unitMultiplier u.toLower = none →
      _parse_duration ⟨ds ++ [u]⟩ = none)
    ∧ _parse_duration "7d" = some 604800
    ∧ _parse_duration "12h" = some 43200
    ∧ _parse_duration "30" = some 2592000
    ∧ _parse_duration "xyz" = none
    ∧ _parse_duration "-5d" = none
    ∧ _parse_duration "" = none
    ∧ _parse_duration "d" = none := by
  refine ⟨?_, ?_, ?_, by decide, by decide, by decide, by decide, by decide,
    by decide, by decide⟩
  · intro ds u mult hne hdig hu
    exact parse_digits_unit ds u mult hne hdig hu
  · intro ds hne hdig
    exact parse_digits_bare ds hne hdig
  · intro ds u hdig halpha hu
    exact parse_digits_unknown_unit ds u hdig halpha hu

/-- C3 witness: `"42H"` (upper-case unit) parses to `42 * 3600 = 151200`. -/
theorem parse_duration_spec_witness :
    _parse_duration ⟨['4', '2'] ++ ['H']⟩ = some 151200 := by
  have h := parse_duration_spec.1 ['4', '2'] 'H' 3600 (by decide) (by decide) (by decide)
  simpa using h
